import Mathlib

/-!
Verification model of the whatsapp-action dispatcher.

The program (package main, draft `part_002`) fans a single text message out to a
list of recipients. `main` reads `INPUT_RECIPIENTS` from the environment and
splits it on commas, builds an `Inputs` value, starts `Run` in a goroutine, and
waits in a select on a cancellable context and a signal channel. `Run` checks
for an empty recipient list, starts the inner `run` in a goroutine, and waits in
a select on the context and an error channel. `run` spawns one send task per
recipient under `errgroup.WithContext`, each task writes a flattened response to
the results channel on success, and after `errg.Wait()` the channel is closed.

The embedding below translates those functions into pure Lean definitions.
Concurrency is resolved by explicit schedule parameters: a `Step` list fixes the
order in which send tasks complete (and whether an in-flight send observes the
cancellation of the group context), and Boolean schedule flags fix which arm of
each two-way select fires first and which of two racing operations runs first.
Go channel behaviour is modelled by `GoChan`: receiving from an open channel
with no remaining sender blocks (`none`), closing an already-closed channel is
the runtime panic "close of closed channel" (`none` from `closeChan`), and a
`for range` loop over a channel terminates only once the channel is closed.
-/

/-- Errors that can arise in a dispatch run: a per-recipient send failure
(the wrapped error returned by `SendTextMessage`), the `context.Canceled`
error produced when a context is cancelled, and the configuration error
built by `fmt.Errorf` in `Run`. -/
inductive Err where
  | sendFailed (recipient : String)
  | ctxCanceled
  | configErr (msg : String)
deriving DecidableEq, Repr

/-- `MessageID` from the whatsapp response types: a remote-assigned id. -/
structure MessageID where
  id : String
deriving DecidableEq, Repr

/-- `ResponseMessage`: the body of a whatsapp API response (the `Contacts`
field is never read by the dispatcher, so only `Product` and `Messages` are
kept). -/
structure ResponseMessage where
  product : String
  messages : List MessageID
deriving DecidableEq, Repr

/-- `whttp.Response`: status code plus an optional response message. The Go
value is a pointer, so call sites receive `Option WResponse`, with `none`
standing for a nil pointer. -/
structure WResponse where
  statusCode : Int
  message : Option ResponseMessage
deriving DecidableEq, Repr

/-- The dispatcher's own `Response` struct (part_002 lines 34-38): the
flattened per-recipient success outcome written to the results channel. -/
structure FlatResponse where
  statusCode : Int
  receiver : String
  messageID : String
deriving DecidableEq, Repr

/-- `flattenResponse` (part_002 lines 41-51). The nil guard
`response != nil && response.Message != nil && len(response.Message.Messages) > 0`
covers only the computation of `messageID`; the subsequent read of
`response.StatusCode` is unguarded, so a nil `response` argument panics with a
nil dereference. The panic is modelled by returning `none`. -/
def flattenResponse (receiver : String) (response : Option WResponse) :
    Option FlatResponse :=
  let messageID :=
    match response with
    | some r =>
      match r.message with
      | some m =>
        match m.messages with
        | mid :: _ => mid.id
        | [] => ""
      | none => ""
    | none => ""
  match response with
  | none => none
  | some r => some { statusCode := r.statusCode, receiver := receiver, messageID := messageID }

/-- The message-id selection rule as the spec words it: the remote-assigned
message id is the first message's id, and the empty string whenever the
response carries no messages (nil response message or empty messages list). -/
def specMessageID : Option ResponseMessage → String
  | none => ""
  | some m =>
    match m.messages with
    | [] => ""
    | mid :: _ => mid.id

/-- Worker for `splitComma`, splitting a character list at every comma while
accumulating the current field in reverse. -/
def splitCommaAux : List Char → List Char → List (List Char)
  | [], acc => [acc.reverse]
  | c :: cs, acc =>
    if c = ',' then acc.reverse :: splitCommaAux cs []
    else splitCommaAux cs (c :: acc)

/-- `strings.Split(s, ",")` as used by `main` to build the recipient list:
splits `s` around each comma, always yielding one more field than there are
commas; in particular `strings.Split("", ",")` is the one-element list
containing the empty string. -/
def splitComma (s : String) : List String :=
  (splitCommaAux s.data []).map fun cs => String.mk cs

/-- A Go channel: its current buffer contents and whether it has been closed. -/
structure GoChan (α : Type) where
  buf : List α
  closed : Bool
deriving DecidableEq, Repr

/-- Closing a channel. Closing an already-closed channel is the runtime panic
"close of closed channel", modelled by `none`. -/
def closeChan {α : Type} (c : GoChan α) : Option (GoChan α) :=
  if c.closed then none else some { c with closed := true }

/-- A `for v := range ch` loop run by the only receiver once no sender remains:
it terminates with the drained buffer only if the channel is closed; over an
open channel it blocks forever (`none`). -/
def rangeDrain {α : Type} (c : GoChan α) : Option (List α) :=
  if c.closed then some c.buf else none

/-- A single receive from a buffered channel: yields the head of the buffer and
the remaining channel; with an empty buffer and no sender it blocks (`none`). -/
def recvChan {α : Type} (c : GoChan α) : Option (α × GoChan α) :=
  match c.buf with
  | x :: rest => some (x, GoChan.mk rest c.closed)
  | [] => none

/-- What `client.SendTextMessage` returns for one recipient when the group
context is not cancelled: a non-nil response, or an error. -/
inductive SendResult where
  | ok (resp : WResponse)
  | fail (e : Err)
deriving DecidableEq, Repr

/-- Whether a send result is a success. -/
def SendResult.isOk : SendResult → Bool
  | .ok _ => true
  | .fail _ => false

/-- One scheduling decision inside `run`: the task for recipient `idx`
completes next, and `observeCancel` says whether its in-flight send observed a
cancellation of the errgroup context (cancellation is cooperative, so an
already-cancelled context may or may not be observed by a given call). -/
structure Step where
  idx : Nat
  observeCancel : Bool
deriving DecidableEq, Repr

/-- The shared state of one `run` execution: `canceled` is whether the
errgroup-derived context `gctx` has been cancelled (errgroup.WithContext
cancels it the first time a task returns a non-nil error), `firstErr` is the
single error recorded by the errgroup (`Wait` returns only the first), `sink`
lists the values written to the results channel in write order, `taskErrs`
lists the task errors in completion order, and `completed` counts returned
tasks. -/
structure RunState where
  canceled : Bool
  firstErr : Option Err
  sink : List FlatResponse
  taskErrs : List Err
  completed : Nat
deriving DecidableEq, Repr

/-- Initial `run` state; `parentCanceled` is whether the context passed into
`run` (hence `gctx`) is already cancelled. -/
def initRunState (parentCanceled : Bool) : RunState :=
  { canceled := parentCanceled, firstErr := none, sink := [], taskErrs := [], completed := 0 }

/-- Completion of one task of `run` (part_002 lines 120-130). The task sends
for its recipient: if the group context is cancelled and the call observes it,
`SendTextMessage` returns `context.Canceled`; otherwise it returns the
recipient's base result. On success the task writes
`flattenResponse(recipient, resp)` to the results channel; on failure it
returns the error to the errgroup, which records the first error and cancels
the group context. -/
def runStep (recipients : List String) (base : String → SendResult)
    (st : RunState) (s : Step) : RunState :=
  match recipients[s.idx]? with
  | none => st
  | some r =>
    let res := if s.observeCancel && st.canceled then SendResult.fail Err.ctxCanceled
               else base r
    match res with
    | .ok resp =>
      { st with sink := st.sink ++ (flattenResponse r (some resp)).toList,
                completed := st.completed + 1 }
    | .fail e =>
      { st with canceled := true,
                firstErr := match st.firstErr with
                  | some e0 => some e0
                  | none => some e,
                taskErrs := st.taskErrs ++ [e],
                completed := st.completed + 1 }

/-- Execution of all of `run`'s tasks under completion schedule `sched`. -/
def runExec (recipients : List String) (base : String → SendResult)
    (parentCanceled : Bool) (sched : List Step) : RunState :=
  sched.foldl (runStep recipients base) (initRunState parentCanceled)

/-- A schedule is valid for `n` tasks when it completes each of the `n`
spawned tasks exactly once, in some order. -/
def isValidSched (n : Nat) (sched : List Step) : Prop :=
  (sched.map Step.idx).Perm (List.range n)

/-- What `run` (part_002 lines 112-140) leaves behind: the error returned by
`errg.Wait()` (the first task error, or nil) and the results channel after the
deferred `close(responses)`. -/
structure RunOut where
  err : Option Err
  chan : GoChan FlatResponse
deriving DecidableEq, Repr

/-- `run`: spawn one task per recipient, wait for all of them, then close the
results channel (the close is sequenced after `errg.Wait()` returns). -/
def run (recipients : List String) (base : String → SendResult)
    (parentCanceled : Bool) (sched : List Step) : RunOut :=
  let st := runExec recipients base parentCanceled sched
  { err := st.firstErr, chan := { buf := st.sink, closed := true } }

/-- `errors.Join` over the error values collected by `Run`'s aggregation loop:
nil values are dropped; the join is nil when no non-nil error remains. A Go
`error` at the aggregate level is modelled as `Option (List Err)` — `none` for
nil, `some es` for a (joined) non-empty list of errors. -/
def joinErrors (es : List (Option Err)) : Option (List Err) :=
  let nonNil := es.filterMap id
  if nonNil.isEmpty then none else some nonNil

/-- The outcome of a call to `Run`: either it returns an error value (possibly
nil), or it never returns because it is blocked on a channel operation. -/
inductive RunResult where
  | returns (e : Option (List Err))
  | blocked
deriving DecidableEq, Repr

/-- A `Run` call's outcome together with everything that was ever written to
the results channel during it. -/
structure RunRet where
  res : RunResult
  writes : List FlatResponse
deriving DecidableEq, Repr

/-- `Run` (part_002 lines 53-110). After the empty-recipient-list check it
starts `run` in a goroutine whose only communication is a single send of
`run`'s returned error on `errChan`; `errChan` has capacity `len(recipients)`
but receives exactly that one value and is never closed. `Run` then selects
between `ctx.Done()` (returning `ctx.Err()`) and the first receive from
`errChan`; in the latter case the received value is discarded by the
`case <-errChan:` pattern and `Run` enters `for err := range errChan`, a range
loop over the now-empty, never-closed channel, which blocks forever. The dead
`errors.Join(allErrors...)` return is still modelled, guarded by `rangeDrain`.
`ctxDoneFirst` is the schedule flag saying which ready select arm fires. -/
def Run (recipients : List String) (base : String → SendResult)
    (parentCanceled : Bool) (sched : List Step)
    (ctxDoneFirst : Bool) (ctxErr : Err) : RunRet :=
  if recipients.length = 0 then
    { res := .returns (some [Err.configErr "no recipients specified"]), writes := [] }
  else
    let ro := run recipients base parentCanceled sched
    let errChan : GoChan (Option Err) := { buf := [ro.err], closed := false }
    if ctxDoneFirst then
      { res := .returns (some [ctxErr]), writes := ro.chan.buf }
    else
      match recvChan errChan with
      | none => { res := .blocked, writes := ro.chan.buf }
      | some (_, rest) =>
        match rangeDrain rest with
        | some errs => { res := .returns (joinErrors errs), writes := ro.chan.buf }
        | none => { res := .blocked, writes := ro.chan.buf }

/-- The observable end state of the whole process. `exits` carries the exit
code, the successes printed from draining the results channel, and the error
reported on stderr (nil when exiting 0); `blocked` means the process hangs
forever; `panicked` means a goroutine panicked, crashing the process. -/
inductive ProcResult where
  | exits (code : Nat) (printed : List FlatResponse) (reportedErr : Option (List Err))
  | blocked
  | panicked (msg : String)
deriving DecidableEq, Repr

/-- Schedule flags resolving the races in `main`'s signal path:
`runClosesFirst` — the coordinator's deferred `close(responses)` (line 134)
runs before `main`'s `close(responseChan)` (line 202); `runSelectCtxDone` —
after cancellation, `Run`'s select fires on the `ctx.Done()` arm (delivering
`ctx.Err()` to `main`) before the coordinator goroutine gets to its deferred
close; `exitBeforeRunClose` — `os.Exit(1)` in `main` then runs before that
still-pending deferred close. -/
structure Sched2 where
  runClosesFirst : Bool
  runSelectCtxDone : Bool
  exitBeforeRunClose : Bool
deriving DecidableEq, Repr

/-- `main` (part_002 lines 170-212), named `mainProc` here because Lean
reserves `main` for executable entry points. The recipient list is
`strings.Split(INPUT_RECIPIENTS, ",")`. `main` starts `Run` in a goroutine and
then selects between `nctx.Done()` and the signal channel. `cancel` is invoked
only inside the signal arm, so without a signal neither select arm ever fires
and `main` blocks at line 195 forever, whatever `Run` did. With a signal,
`main` cancels the context, closes `responseChan` — which the coordinator also
closes, so one of the two `close` calls panics with "close of closed channel"
depending on order — drains the channel, prints each drained success, and then
waits on `<-errChan` for `Run`'s result. The `errChan <- run(...)` send inside
`Run` is sequenced after `run` returns, and `run`'s deferred
`close(responses)` runs before that return: so once `main` has closed the
channel, the coordinator goroutine's pending deferred close panics before any
result can reach `Run`'s `errChan` arm, and the only result `Run` can still
deliver is `ctx.Err()` via its `ctx.Done()` arm. -/
def mainProc (recipientsEnv : String) (base : String → SendResult)
    (sched : List Step) (signalArrives : Bool) (s2 : Sched2) : ProcResult :=
  let recipients := splitComma recipientsEnv
  if signalArrives then
    let ro := run recipients base true sched
    if s2.runClosesFirst then
      match closeChan ro.chan with
      | none => .panicked "close of closed channel"
      | some _ => .blocked
    else
      match closeChan (GoChan.mk ro.chan.buf false) with
      | none => .blocked
      | some c =>
        match rangeDrain c with
        | none => .blocked
        | some printed =>
          if s2.runSelectCtxDone then
            if s2.exitBeforeRunClose then
              .exits 1 printed (some [Err.ctxCanceled])
            else
              .panicked "close of closed channel"
          else
            -- the coordinator goroutine's pending deferred close(responses)
            -- executes, on the channel main already closed, before any
            -- errChan send can happen
            match closeChan c with
            | none => .panicked "close of closed channel"
            | some _ => .blocked
  else
    .blocked

/-- A send behaviour where recipient "a" fails and every other recipient's
send succeeds with status 200. -/
def baseAFails : String → SendResult := fun r =>
  if r = "a" then .fail (.sendFailed "a")
  else .ok { statusCode := 200, message := none }

/-- A send behaviour where every recipient's send fails. -/
def baseAllFail : String → SendResult := fun r => .fail (.sendFailed r)

/-- The spec's two-recipient success scenario: sends to "111" and "222" both
succeed with status 200 and message ids "wamid.A" and "wamid.B". -/
def baseScenario : String → SendResult := fun r =>
  if r = "111" then
    .ok { statusCode := 200,
          message := some { product := "whatsapp", messages := [{ id := "wamid.A" }] } }
  else
    .ok { statusCode := 200,
          message := some { product := "whatsapp", messages := [{ id := "wamid.B" }] } }

/-- A send behaviour where every recipient's send succeeds with status 200. -/
def baseAllOk : String → SendResult := fun _ =>
  .ok { statusCode := 200, message := none }

/-- On a non-nil response, `flattenResponse` yields exactly the receiver, the
response status, and the spec's message-id selection. -/
theorem flatten_some (receiver : String) (sc : Int) (om : Option ResponseMessage) :
    flattenResponse receiver (some ⟨sc, om⟩) = some ⟨sc, receiver, specMessageID om⟩ := by
  cases om with
  | none => rfl
  | some m =>
    cases m with
    | mk product messages =>
      cases messages with
      | nil => rfl
      | cons mid rest => rfl

/-- `splitCommaAux` always produces at least one field. -/
theorem splitCommaAux_length_pos (cs : List Char) :
    ∀ acc, 0 < (splitCommaAux cs acc).length := by
  induction cs with
  | nil => intro acc; simp [splitCommaAux]
  | cons c cs ih =>
    intro acc
    simp only [splitCommaAux]
    split
    · simp
    · exact ih _

/-- `strings.Split(s, ",")` always produces a non-empty list. -/
theorem splitComma_length_pos (s : String) : 0 < (splitComma s).length := by
  simp only [splitComma, List.length_map]
  exact splitCommaAux_length_pos s.data []

/-- Lift a recipient predicate to an index predicate over the recipient
list (false out of range). -/
def atIdx (rs : List String) (p : String → Bool) (i : Nat) : Bool :=
  match rs[i]? with
  | some r => p r
  | none => false

/-- Counting an index predicate over all positions equals counting the
underlying recipient predicate over the list. -/
theorem countP_range_atIdx (p : String → Bool) :
    ∀ rs : List String, (List.range rs.length).countP (atIdx rs p) = rs.countP p := by
  intro rs
  induction rs with
  | nil => rfl
  | cons a l ih =>
    rw [List.length_cons, List.range_succ_eq_map, List.countP_cons, List.countP_map]
    have hcong : (List.range l.length).countP (atIdx (a :: l) p ∘ Nat.succ)
        = (List.range l.length).countP (atIdx l p) := by
      refine List.countP_congr fun i _ => ?_
      simp [atIdx, Function.comp]
    rw [hcong, ih, List.countP_cons]
    simp [atIdx]

/-- For a valid schedule, counting an index predicate over the schedule equals
counting it over all task indices. -/
theorem countP_idx_valid (rs : List String) (sched : List Step) (q : Nat → Bool)
    (h : isValidSched rs.length sched) :
    sched.countP (fun s => q s.idx) = (List.range rs.length).countP q := by
  have h1 : (sched.map Step.idx).countP q = sched.countP (q ∘ Step.idx) :=
    List.countP_map q Step.idx sched
  have h2 : sched.countP (fun s => q s.idx) = (sched.map Step.idx).countP q := by
    rw [h1]; rfl
  rw [h2]
  exact h.countP_eq q

/-- Every position of the recipient list is in range. -/
theorem countP_range_isSome (rs : List String) :
    (List.range rs.length).countP (fun i => (rs[i]?).isSome) = rs.length := by
  have h : (List.range rs.length).countP (fun i => (rs[i]?).isSome)
      = (List.range rs.length).length := by
    rw [List.countP_eq_length]
    intro i hi
    rw [List.mem_range] at hi
    simp [List.getElem?_eq_getElem hi]
  rw [h, List.length_range]

/-- Each scheduled completion of a spawned task increments the completed-task
count by one; out-of-range indices complete nothing. -/
theorem foldl_completed (rs : List String) (base : String → SendResult) :
    ∀ (sched : List Step) (st : RunState),
      (List.foldl (runStep rs base) st sched).completed
        = st.completed + sched.countP (fun s => (rs[s.idx]?).isSome) := by
  intro sched
  induction sched with
  | nil => intro st; simp
  | cons s sched ih =>
    intro st
    rw [List.foldl_cons, ih, List.countP_cons]
    have hstep : (runStep rs base st s).completed
        = st.completed + if (rs[s.idx]?).isSome then 1 else 0 := by
      unfold runStep
      cases h : rs[s.idx]? with
      | none => simp
      | some r =>
        simp only [Option.isSome_some, if_true]
        split <;> rfl
    rw [hstep]
    omega

/-- One step preserves the invariant that the group context is cancelled only
because some recipient's own send fails, and that every `context.Canceled`
task error likewise traces back to some recipient's own send failure. -/
theorem runStep_cancel_source (rs : List String) (base : String → SendResult)
    (st : RunState) (s : Step)
    (hc : st.canceled = true → ∃ r ∈ rs, (base r).isOk = false)
    (ht : ∀ e ∈ st.taskErrs, e = Err.ctxCanceled → ∃ r ∈ rs, (base r).isOk = false) :
    ((runStep rs base st s).canceled = true → ∃ r ∈ rs, (base r).isOk = false)
    ∧ (∀ e ∈ (runStep rs base st s).taskErrs,
        e = Err.ctxCanceled → ∃ r ∈ rs, (base r).isOk = false) := by
  unfold runStep
  cases h : rs[s.idx]? with
  | none => exact ⟨hc, ht⟩
  | some r =>
    have hmem : r ∈ rs := List.getElem?_mem h
    simp only
    by_cases hoc : (s.observeCancel && st.canceled) = true
    · have hcanc : st.canceled = true := (Bool.and_eq_true _ _).mp hoc |>.2
      rw [if_pos hoc]
      simp only
      constructor
      · intro _; exact hc hcanc
      · intro e he
        rw [List.mem_append] at he
        rcases he with he | he
        · exact ht e he
        · intro _; exact hc hcanc
    · rw [if_neg hoc]
      cases hbr : base r with
      | ok resp =>
        simp only
        exact ⟨hc, ht⟩
      | fail e0 =>
        simp only
        have hfail : ∃ r' ∈ rs, (base r').isOk = false :=
          ⟨r, hmem, by rw [hbr]; rfl⟩
        constructor
        · intro _; exact hfail
        · intro e he
          rw [List.mem_append] at he
          rcases he with he | he
          · exact ht e he
          · intro _; exact hfail

/-- Over a whole schedule: starting from an uncancelled state with no recorded
task errors, every `context.Canceled` task error traces back to a recipient
whose own send fails. -/
theorem foldl_cancel_source (rs : List String) (base : String → SendResult) :
    ∀ (sched : List Step) (st : RunState),
      (st.canceled = true → ∃ r ∈ rs, (base r).isOk = false) →
      (∀ e ∈ st.taskErrs, e = Err.ctxCanceled → ∃ r ∈ rs, (base r).isOk = false) →
      (∀ e ∈ (List.foldl (runStep rs base) st sched).taskErrs,
        e = Err.ctxCanceled → ∃ r ∈ rs, (base r).isOk = false) := by
  intro sched
  induction sched with
  | nil => intro st _ ht; exact ht
  | cons s sched ih =>
    intro st hc ht
    rw [List.foldl_cons]
    obtain ⟨hc', ht'⟩ := runStep_cancel_source rs base st s hc ht
    exact ih _ hc' ht'

/-- When every recipient's send succeeds, each step keeps the context
uncancelled and appends exactly one outcome to the sink per spawned task. -/
theorem foldl_allok (rs : List String) (base : String → SendResult)
    (hok : ∀ r ∈ rs, (base r).isOk = true) :
    ∀ (sched : List Step) (st : RunState), st.canceled = false →
      (List.foldl (runStep rs base) st sched).canceled = false
      ∧ (List.foldl (runStep rs base) st sched).sink.length
          = st.sink.length + sched.countP (fun s => (rs[s.idx]?).isSome) := by
  intro sched
  induction sched with
  | nil => intro st h; exact ⟨h, by simp⟩
  | cons s sched ih =>
    intro st hcf
    rw [List.foldl_cons, List.countP_cons]
    have hstep : (runStep rs base st s).canceled = false
        ∧ (runStep rs base st s).sink.length
            = st.sink.length + (if (rs[s.idx]?).isSome then 1 else 0) := by
      unfold runStep
      cases h : rs[s.idx]? with
      | none => exact ⟨hcf, by simp⟩
      | some r =>
        have hmem : r ∈ rs := List.getElem?_mem h
        have hoc : (s.observeCancel && st.canceled) = false := by
          rw [hcf, Bool.and_false]
        cases hbr : base r with
        | ok resp =>
          cases resp with
          | mk sc om => constructor <;> simp [hoc, hbr, flatten_some, hcf]
        | fail e0 =>
          have hcontra := hok r hmem
          rw [hbr] at hcontra
          simp [SendResult.isOk] at hcontra
    obtain ⟨hs1, hs2⟩ := ih (runStep rs base st s) hstep.1
    refine ⟨hs1, ?_⟩
    rw [hs2, hstep.2]
    omega

/-- With a schedule in which no in-flight send observes cancellation, each
spawned task resolves against its recipient's own send behaviour: successes
add one sink entry each, failures add one task error each. -/
theorem foldl_counts_noObserve (rs : List String) (base : String → SendResult) :
    ∀ (sched : List Step) (st : RunState), (∀ s ∈ sched, s.observeCancel = false) →
      (List.foldl (runStep rs base) st sched).sink.length
        = st.sink.length + sched.countP (fun s => atIdx rs (fun r => (base r).isOk) s.idx)
      ∧ (List.foldl (runStep rs base) st sched).taskErrs.length
        = st.taskErrs.length + sched.countP (fun s => atIdx rs (fun r => !(base r).isOk) s.idx) := by
  intro sched
  induction sched with
  | nil => intro st _; exact ⟨by simp, by simp⟩
  | cons s sched ih =>
    intro st hno
    rw [List.foldl_cons, List.countP_cons, List.countP_cons]
    have hsno : s.observeCancel = false := hno s (List.mem_cons_self s sched)
    have hstep : (runStep rs base st s).sink.length
          = st.sink.length + (if atIdx rs (fun r => (base r).isOk) s.idx then 1 else 0)
        ∧ (runStep rs base st s).taskErrs.length
          = st.taskErrs.length + (if atIdx rs (fun r => !(base r).isOk) s.idx then 1 else 0) := by
      unfold runStep
      cases h : rs[s.idx]? with
      | none => constructor <;> simp [atIdx, h]
      | some r =>
        have hoc : (s.observeCancel && st.canceled) = false := by
          rw [hsno, Bool.false_and]
        cases hbr : base r with
        | ok resp =>
          cases resp with
          | mk sc om =>
            constructor <;> simp [atIdx, h, hoc, hbr, flatten_some, SendResult.isOk]
        | fail e0 =>
          constructor <;> simp [atIdx, h, hoc, hbr, SendResult.isOk]
    obtain ⟨hs1, hs2⟩ := ih (runStep rs base st s) (fun x hx => hno x (List.mem_cons_of_mem s hx))
    constructor
    · rw [hs1, hstep.1]; omega
    · rw [hs2, hstep.2]; omega

/-- C1: the claim that a single task's failure never cancels or stops the
sends of sibling recipients is false of the code: `run` builds its group with
`errgroup.WithContext`, which cancels the shared group context as soon as the
first task returns a non-nil error, and every send runs under that context.
In the valid schedule below, recipient "a"'s send fails first and recipient
"b"'s send — which would have succeeded — is cooperatively cancelled: task "b"
completes with `context.Canceled` and writes nothing to the Result Sink. -/
theorem C1_sibling_send_canceled_counterexample :
    (baseAFails "b").isOk = true
    ∧ isValidSched 2 [⟨0, false⟩, ⟨1, true⟩]
    ∧ (runExec ["a", "b"] baseAFails false [⟨0, false⟩, ⟨1, true⟩]).taskErrs
        = [Err.sendFailed "a", Err.ctxCanceled]
    ∧ (runExec ["a", "b"] baseAFails false [⟨0, false⟩, ⟨1, true⟩]).sink = [] := by
  refine ⟨by decide, ?_, by decide, by decide⟩
  unfold isValidSched
  decide

/-- C1 (amended): the coordinator does perform a strict join — every valid
schedule completes all N spawned tasks before `errg.Wait()` returns — and if
no recipient's own send fails then no send is ever cancelled and all N
outcomes reach the Result Sink; but a task that completes with
`context.Canceled` owes that to some recipient's own send failing, because the
first failure cancels the shared group context and may cooperatively stop
sibling sends that have not yet completed. -/
theorem C1_strict_join_amended (rs : List String) (base : String → SendResult)
    (sched : List Step) (h : isValidSched rs.length sched) :
    (runExec rs base false sched).completed = rs.length
    ∧ (∀ e ∈ (runExec rs base false sched).taskErrs,
        e = Err.ctxCanceled → ∃ r ∈ rs, (base r).isOk = false)
    ∧ ((∀ r ∈ rs, (base r).isOk = true) →
        (runExec rs base false sched).sink.length = rs.length) := by
  refine ⟨?_, ?_, ?_⟩
  · simp only [runExec]
    rw [foldl_completed, countP_idx_valid rs sched (fun i => (rs[i]?).isSome) h,
      countP_range_isSome]
    simp [initRunState]
  · exact foldl_cancel_source rs base sched (initRunState false)
      (fun hcc => absurd hcc (by simp [initRunState]))
      (fun e he => absurd he (by simp [initRunState]))
  · intro hok
    have hall := foldl_allok rs base hok sched (initRunState false) rfl
    simp only [runExec]
    rw [hall.2, countP_idx_valid rs sched (fun i => (rs[i]?).isSome) h,
      countP_range_isSome]
    simp [initRunState]

/-- Witness: the amended C1 theorem applied to the concrete two-recipient run
of the counterexample schedule. -/
theorem C1_strict_join_amended_witness :
    (runExec ["a", "b"] baseAFails false [⟨0, false⟩, ⟨1, true⟩]).completed = 2
    ∧ (∀ e ∈ (runExec ["a", "b"] baseAFails false [⟨0, false⟩, ⟨1, true⟩]).taskErrs,
        e = Err.ctxCanceled → ∃ r ∈ ["a", "b"], (baseAFails r).isOk = false)
    ∧ ((∀ r ∈ ["a", "b"], (baseAFails r).isOk = true) →
        (runExec ["a", "b"] baseAFails false [⟨0, false⟩, ⟨1, true⟩]).sink.length = 2) :=
  C1_strict_join_amended ["a", "b"] baseAFails [⟨0, false⟩, ⟨1, true⟩]
    (by unfold isValidSched; decide)

/-- C2: code bug. With two recipients and K = 2 failed sends (zero successes),
the coordinator's `errg.Wait()` yields only the first error — not K joined
errors — and `Run`'s select discards the single value ever sent on `errChan`
and then ranges over that never-closed channel, so `Run` blocks forever and
returns no Aggregated Result at all; nothing was written, so the Result Sink
is indeed empty. -/
theorem C2_aggregation_never_returns :
    (run ["111", "222"] baseAllFail false [⟨0, false⟩, ⟨1, false⟩]).err
        = some (.sendFailed "111")
    ∧ Run ["111", "222"] baseAllFail false [⟨0, false⟩, ⟨1, false⟩] false .ctxCanceled
        = { res := .blocked, writes := [] } :=
  ⟨by decide, by decide⟩

/-- C3: code bug. The coordinator's deferred `close(responses)` does run only
after `errg.Wait()` (first conjunct: the channel `run` hands back is closed),
but `main` at line 202 also closes the same channel, so the results channel
has two closers: in the schedule where the coordinator's close runs first,
`main`'s close panics with "close of closed channel". -/
theorem C3_main_also_closes_results_channel :
    (run ["111"] baseAllFail true [⟨0, true⟩]).chan.closed = true
    ∧ mainProc "111" baseAllFail [⟨0, true⟩] true ⟨true, true, true⟩
        = .panicked "close of closed channel" :=
  ⟨by decide, by decide⟩

/-- C4: code bug. In the spec's success scenario (recipients "111" and "222",
both sends succeed with status 200 and ids "wamid.A"/"wamid.B"), the process
does not terminate: `main`'s select waits only on `nctx.Done()` (cancel is
invoked solely in the signal branch) and the signal channel, so without an
interrupt it blocks forever; and `Run` itself blocks in its error-collection
range over the never-closed `errChan` even though both outcomes were written
to the results channel. No output is printed and no exit status produced. -/
theorem C4_success_scenario_deadlocks :
    mainProc "111,222" baseScenario [⟨0, false⟩, ⟨1, false⟩] false ⟨false, false, false⟩
        = .blocked
    ∧ Run ["111", "222"] baseScenario false [⟨0, false⟩, ⟨1, false⟩] false .ctxCanceled
        = { res := .blocked,
            writes := [⟨200, "111", "wamid.A"⟩, ⟨200, "222", "wamid.B"⟩] } :=
  ⟨by decide, by decide⟩

/-- C5: the claim's aggregate half is false of the code: in a valid schedule
with F = 2 failures and S = 0 successes, `errg.Wait()` returns only the first
failure's error (naming recipient "x" alone), and the enclosing `Run` never
returns an aggregated result — it blocks in its collection loop. -/
theorem C5_aggregate_single_error_counterexample :
    isValidSched 2 [⟨0, false⟩, ⟨1, false⟩]
    ∧ (run ["x", "y"] baseAllFail false [⟨0, false⟩, ⟨1, false⟩]).err
        = some (.sendFailed "x")
    ∧ (Run ["x", "y"] baseAllFail false [⟨0, false⟩, ⟨1, false⟩] false .ctxCanceled).res
        = .blocked := by
  refine ⟨?_, by decide, by decide⟩
  unfold isValidSched
  decide

/-- C5 (amended): the per-task write discipline holds — each successful send
performs exactly one write to the Result Sink and each failed send performs
none, so over any valid schedule in which no in-flight send observes
cancellation, exactly S outcomes appear on the sink and exactly F task errors
are produced; but the error the coordinator returns is only the first failure
(`errgroup.Wait` keeps one error), not an aggregate of all F. -/
theorem C5_sink_write_discipline_amended (rs : List String)
    (base : String → SendResult) (sched : List Step)
    (hvalid : isValidSched rs.length sched)
    (hno : ∀ s ∈ sched, s.observeCancel = false) :
    (runExec rs base false sched).sink.length = rs.countP (fun r => (base r).isOk)
    ∧ (runExec rs base false sched).taskErrs.length
        = rs.countP (fun r => !(base r).isOk) := by
  have h := foldl_counts_noObserve rs base sched (initRunState false) hno
  constructor
  · simp only [runExec]
    rw [h.1, countP_idx_valid rs sched (atIdx rs (fun r => (base r).isOk)) hvalid,
      countP_range_atIdx]
    simp [initRunState]
  · simp only [runExec]
    rw [h.2, countP_idx_valid rs sched (atIdx rs (fun r => !(base r).isOk)) hvalid,
      countP_range_atIdx]
    simp [initRunState]

/-- Witness: the amended C5 theorem applied to the concrete two-failure run. -/
theorem C5_sink_write_discipline_amended_witness :
    (runExec ["x", "y"] baseAllFail false [⟨0, false⟩, ⟨1, false⟩]).sink.length
        = ["x", "y"].countP (fun r => (baseAllFail r).isOk)
    ∧ (runExec ["x", "y"] baseAllFail false [⟨0, false⟩, ⟨1, false⟩]).taskErrs.length
        = ["x", "y"].countP (fun r => !(baseAllFail r).isOk) :=
  C5_sink_write_discipline_amended ["x", "y"] baseAllFail [⟨0, false⟩, ⟨1, false⟩]
    (by unfold isValidSched; decide) (by decide)

/-- C6: with an empty recipient list, `Run` fails immediately with the
configuration error "no recipients specified", before the coordinator is
started — nothing is ever written to the Result Sink — whatever the send
behaviour, schedule, or select timing; and the recipient list `main` builds by
splitting `INPUT_RECIPIENTS` on commas is never empty, so at process level the
empty dispatch cannot even arise. -/
theorem C6_empty_recipients_fail_fast :
    (∀ (base : String → SendResult) (pc : Bool) (sched : List Step)
        (cdf : Bool) (ce : Err),
      Run [] base pc sched cdf ce
        = { res := .returns (some [Err.configErr "no recipients specified"]),
            writes := [] })
    ∧ (∀ env : String, 0 < (splitComma env).length) :=
  ⟨fun _ _ _ _ _ => rfl, splitComma_length_pos⟩

/-- C7: code bug. With one recipient and the interrupt firing before the task
completes, the Lifecycle Controller is not guaranteed to terminate cleanly:
the results channel has two closers (coordinator line 134, `main` line 202),
so whichever close runs second panics with "close of closed channel" — when
`main` closes first, the coordinator's pending deferred close panics before
its goroutine can even send `run`'s result towards `errChan` (first
conjunct); when the cancellation error is delivered via `Run`'s `ctx.Done()`
arm but `os.Exit(1)` loses the race against that deferred close, the process
likewise panics (second conjunct); and when the coordinator closes first,
`main`'s own close at line 202 panics (third conjunct). Only the single
interleaving where `os.Exit(1)` wins produces the clean cancellation report
the claim promises for every run. -/
theorem C7_interrupt_no_clean_termination :
    mainProc "111" baseAllOk [⟨0, true⟩] true ⟨false, false, false⟩
        = .panicked "close of closed channel"
    ∧ mainProc "111" baseAllOk [⟨0, true⟩] true ⟨false, true, false⟩
        = .panicked "close of closed channel"
    ∧ mainProc "111" baseAllOk [⟨0, true⟩] true ⟨true, false, false⟩
        = .panicked "close of closed channel" :=
  ⟨by decide, by decide, by decide⟩

/-- C8: on every successful send (non-nil response), the outcome carries the
recipient's identifier, the response's status code, and the remote-assigned
message id, which is the first message's id when the response carries
messages and the empty string when the response message is nil or its
messages list is empty (`specMessageID` spells out exactly that selection
rule from the spec). -/
theorem C8_flatten_success_fields (receiver : String) (sc : Int)
    (om : Option ResponseMessage) :
    flattenResponse receiver (some ⟨sc, om⟩) = some ⟨sc, receiver, specMessageID om⟩ :=
  flatten_some receiver sc om

/-- C9: when `INPUT_RECIPIENTS` is empty, `strings.Split` yields the
one-element list containing the empty string — never the empty list (for any
input) — so `Run`'s empty-recipient-list branch is unreachable from `main`:
on `[""]` the guard is not taken, a send to the empty-string recipient is
attempted (the task completes with that send's failure), and `Run` proceeds
past the configuration check into its select. -/
theorem C9_empty_env_yields_one_empty_recipient :
    splitComma "" = [""]
    ∧ (∀ env : String, 0 < (splitComma env).length)
    ∧ (runExec [""] baseAllFail false [⟨0, false⟩]).taskErrs = [Err.sendFailed ""]
    ∧ Run [""] baseAllFail false [⟨0, false⟩] false .ctxCanceled
        = { res := .blocked, writes := [] } :=
  ⟨by decide, splitComma_length_pos, by decide, by decide⟩

/-- C10: `flattenResponse` reads `response.StatusCode` outside the nil guard,
so a nil response argument panics (modelled by `none`) instead of producing an
outcome, while every non-nil response argument produces an outcome. -/
theorem C10_flatten_nil_response_panics :
    (∀ receiver : String, flattenResponse receiver none = none)
    ∧ (∀ (receiver : String) (r : WResponse),
        (flattenResponse receiver (some r)).isSome = true) := by
  constructor
  · intro receiver; rfl
  · intro receiver r
    cases r with
    | mk sc om => rw [flatten_some]; rfl
